import Mathlib

/-! Verification of `UserSecureLinuxInternal`.

A shallow embedding of `auth/src/desktop/secure/user_secure_linux_internal.cc`:
the secure-storage facade that keeps one credential blob per
(namespace, app-name) pair in the desktop secret service.

* `std::string` is a Lean `String` (it may contain the NUL character).
* `const char*` is a `CString`: a string without NUL.  `c_str` is the view a
  C callee has of a `std::string` buffer: the characters before the first NUL.
* The secret service is an interface `SecretService σ` with the three
  synchronous calls the facade issues; every member function threads a
  `World σ` holding the service state and the trace of calls issued.
* `keyring` is a concrete secret service: an attribute-matching record store.
-/

namespace firebase.auth.secure

/-! ## Strings -/

/-- A NUL-terminated C string (`const char*`): the characters before the terminator. -/
structure CString where
  str : String
  nul_free : str.data.all (fun c => c != '\x00') = true
deriving DecidableEq

/-- The C string a callee reads from `s.c_str()`: the characters of the `std::string`
`s` up to, and not including, its first NUL character. -/
def c_str (s : String) : CString :=
  ⟨⟨s.data.takeWhile (fun c => c != '\x00')⟩, by
    rw [List.all_eq_true]
    intro c hc
    exact List.mem_takeWhile_imp (p := fun c => c != '\x00') hc⟩

/-! ## Constants of the translation unit -/

/-- Key entry for the app name in the schema. -/
def kAppNameKey : CString := ⟨"auth_app_name", by decide⟩

/-- Name of the common attribute added to all the device keys. -/
def kCommonKeyId : CString := ⟨"common_key_id", by decide⟩

/-- Value of the common attribute added to all the device keys. -/
def kCommonKeyValue : CString := ⟨"common_key_value", by decide⟩

/-! ## libsecret declarations used by the translation unit -/

/-- Type of an attribute declared in a schema (`SecretSchemaAttributeType`). -/
inductive SecretSchemaAttributeType where
  | SECRET_SCHEMA_ATTRIBUTE_STRING
  | SECRET_SCHEMA_ATTRIBUTE_INTEGER
  | SECRET_SCHEMA_ATTRIBUTE_BOOLEAN
deriving DecidableEq

/-- Flags of a schema (`SecretSchemaFlags`). -/
inductive SecretSchemaFlags where
  | SECRET_SCHEMA_NONE
  | SECRET_SCHEMA_DONT_MATCH_NAME
deriving DecidableEq

/-- A schema (`SecretSchema`): its name, flags and declared attributes. -/
structure SecretSchema where
  name : CString
  flags : SecretSchemaFlags
  attributes : List (CString × SecretSchemaAttributeType)
deriving DecidableEq

/-- Attribute name/value pairs, as passed in the variadic tail of a libsecret call. -/
abbrev Attributes := List (CString × CString)

/-- A `GError` reported by a libsecret call. -/
structure GError where
  code : Int
  message : String
deriving DecidableEq

/-- What `secret_password_lookup_sync` hands back: the `GError*` it wrote through the
`error` out-parameter (`none` is `nullptr`) and the returned `char*` (`none` is `nullptr`). -/
structure LookupOutcome where
  error : Option GError
  result : Option CString

/-- The collection alias `SECRET_COLLECTION_DEFAULT`. -/
def SECRET_COLLECTION_DEFAULT : CString := ⟨"default", by decide⟩

/-- The secret-service client: the three synchronous libsecret calls issued by the
facade, over a service state `σ`.  Each call may change the service state; store and
clear report success as a `Bool`, which the facade ignores. -/
structure SecretService (σ : Type) where
  secret_password_lookup_sync : SecretSchema → Attributes → σ → LookupOutcome × σ
  secret_password_store_sync :
    SecretSchema → CString → CString → CString → Attributes → σ → Bool × σ
  secret_password_clear_sync : SecretSchema → Attributes → σ → Bool × σ

/-- One call issued to the secret service. -/
inductive BackendCall where
  | lookup (schema : SecretSchema) (attrs : Attributes)
  | store (schema : SecretSchema) (collection label password : CString) (attrs : Attributes)
  | clear (schema : SecretSchema) (attrs : Attributes)
deriving DecidableEq

/-- The world a member function runs in: the state of the secret service and the
trace of the calls issued to it so far. -/
structure World (σ : Type) where
  backend : σ
  calls : List BackendCall

/-! ## The translation unit -/

/-- `BuildSchema`: the schema named after the namespace, declaring the two string
attributes `kAppNameKey` and `kCommonKeyId`. -/
def BuildSchema (key_namespace : CString) : SecretSchema :=
  { name := key_namespace
    flags := SecretSchemaFlags.SECRET_SCHEMA_NONE
    attributes :=
      [ (kAppNameKey, SecretSchemaAttributeType.SECRET_SCHEMA_ATTRIBUTE_STRING),
        (kCommonKeyId, SecretSchemaAttributeType.SECRET_SCHEMA_ATTRIBUTE_STRING) ] }

/-- The data members of `UserSecureLinuxInternal`. -/
structure UserSecureLinuxInternal where
  key_namespace_ : String
  storage_schema_ : SecretSchema

/-- The constructor `UserSecureLinuxInternal(const char* key_namespace)`. -/
def UserSecureLinuxInternal.create (key_namespace : CString) : UserSecureLinuxInternal :=
  { key_namespace_ := key_namespace.str
    storage_schema_ := BuildSchema key_namespace }

variable {σ : Type}

/-- `UserSecureLinuxInternal::LoadUserData`. -/
def UserSecureLinuxInternal.LoadUserData (svc : SecretService σ)
    (self : UserSecureLinuxInternal) (app_name : String) (w : World σ) :
    String × World σ :=
  let empty_str : String := ""
  if self.key_namespace_.length ≤ 0 then
    (empty_str, w)
  else
    let attrs : Attributes := [(kAppNameKey, c_str app_name)]
    let r := svc.secret_password_lookup_sync self.storage_schema_ attrs w.backend
    let w1 : World σ :=
      { backend := r.2
        calls := w.calls ++ [BackendCall.lookup self.storage_schema_ attrs] }
    match r.1.error with
    | some _ => (empty_str, w1)
    | none =>
      match r.1.result with
      | none => (empty_str, w1)
      | some result => (result.str, w1)

/-- `UserSecureLinuxInternal::SaveUserData`. -/
def UserSecureLinuxInternal.SaveUserData (svc : SecretService σ)
    (self : UserSecureLinuxInternal) (app_name user_data : String) (w : World σ) :
    World σ :=
  if self.key_namespace_.length ≤ 0 then
    w
  else
    let label : CString := ⟨"UserSecure", by decide⟩
    let attrs : Attributes :=
      [(kAppNameKey, c_str app_name), (kCommonKeyId, kCommonKeyValue)]
    let r := svc.secret_password_store_sync self.storage_schema_ SECRET_COLLECTION_DEFAULT
      label (c_str user_data) attrs w.backend
    { backend := r.2
      calls := w.calls ++ [BackendCall.store self.storage_schema_ SECRET_COLLECTION_DEFAULT
        label (c_str user_data) attrs] }

/-- `UserSecureLinuxInternal::DeleteUserData`. -/
def UserSecureLinuxInternal.DeleteUserData (svc : SecretService σ)
    (self : UserSecureLinuxInternal) (app_name : String) (w : World σ) : World σ :=
  if self.key_namespace_.length ≤ 0 then
    w
  else
    let attrs : Attributes := [(kAppNameKey, c_str app_name)]
    let r := svc.secret_password_clear_sync self.storage_schema_ attrs w.backend
    { backend := r.2
      calls := w.calls ++ [BackendCall.clear self.storage_schema_ attrs] }

/-- `UserSecureLinuxInternal::DeleteAllData`. -/
def UserSecureLinuxInternal.DeleteAllData (svc : SecretService σ)
    (self : UserSecureLinuxInternal) (w : World σ) : World σ :=
  if self.key_namespace_.length ≤ 0 then
    w
  else
    let attrs : Attributes := [(kCommonKeyId, kCommonKeyValue)]
    let r := svc.secret_password_clear_sync self.storage_schema_ attrs w.backend
    { backend := r.2
      calls := w.calls ++ [BackendCall.clear self.storage_schema_ attrs] }

/-! ## Sequences of mutating calls -/

/-- A mutating call on a store handle. -/
inductive Op where
  | save (app_name user_data : String)
  | delete (app_name : String)
  | deleteAll

/-- Issue one mutating call on the handle `self`. -/
def UserSecureLinuxInternal.step (svc : SecretService σ) (self : UserSecureLinuxInternal)
    (w : World σ) : Op → World σ
  | Op.save app_name user_data => self.SaveUserData svc app_name user_data w
  | Op.delete app_name => self.DeleteUserData svc app_name w
  | Op.deleteAll => self.DeleteAllData svc w

/-- Issue a sequence of mutating calls on the handle `self`, first to last. -/
def UserSecureLinuxInternal.run (svc : SecretService σ) (self : UserSecureLinuxInternal)
    (ops : List Op) (w : World σ) : World σ :=
  ops.foldl (self.step svc) w

/-! ## The secret service as an attribute-matching record store -/

/-- One record of the secret service: a secret value filed under a label and a table
of attributes. -/
structure SecretItem where
  label : CString
  secret : CString
  attributes : Attributes
deriving DecidableEq

/-- The attribute under which libsecret files the name of the schema. -/
def xdgSchemaKey : CString := ⟨"xdg:schema", by decide⟩

/-- The value an attribute table gives to the attribute `key`, if any. -/
def attributeValue : Attributes → CString → Option CString
  | [], _ => none
  | (k, v) :: rest, key => if k = key then some v else attributeValue rest key

/-- The attribute table sent to the service for the caller's attributes `attrs`:
when a schema name is given, it is filed under `xdgSchemaKey`, replacing any
caller-supplied entry of that name. -/
def serviceAttributes (attrs : Attributes) : Option CString → Attributes
  | none => attrs
  | some schema_name =>
    attrs.filter (fun kv => decide (kv.1 ≠ xdgSchemaKey)) ++ [(xdgSchemaKey, schema_name)]

/-- The schema name a search is restricted to: none for a schema flagged
`SECRET_SCHEMA_DONT_MATCH_NAME`. -/
def searchSchemaName (schema : SecretSchema) : Option CString :=
  if schema.flags = SecretSchemaFlags.SECRET_SCHEMA_DONT_MATCH_NAME then none
  else some schema.name

/-- An item matches a query when it carries every attribute of the query with the
same value. -/
def itemMatches (query : Attributes) (item : SecretItem) : Bool :=
  query.all (fun kv => decide (attributeValue item.attributes kv.1 = some kv.2))

/-- Replace the first record satisfying `p` by `item`, keeping its position; when no
record satisfies `p`, add `item` after the others. -/
def replaceOrAdd (p : SecretItem → Bool) (item : SecretItem) : List SecretItem → List SecretItem
  | [] => [item]
  | x :: xs => if p x then item :: xs else x :: replaceOrAdd p item xs

/-- Modelled from the spec: the secret-service backend (the libsecret client of the
desktop keyring), an external collaborator whose code is not part of the repository.
It is the attribute-matching record store of the spec's data model and interface
sections, holding one collection, and every call succeeds:
* `lookup(schema, attribute-filters)` yields the secret of the first record that
  carries the filters and the schema name, or not-found;
* `store(schema, collection, label, secret, attribute-filters)` overwrites the first
  record that carries these attributes and the schema name (attribute-match replace),
  or files a new record;
* `clear(schema, attribute-filters)` removes every record that carries the filters
  and the schema name. -/
def keyring : SecretService (List SecretItem) where
  secret_password_lookup_sync := fun schema attrs items =>
    ({ error := none
       result := (items.find? (itemMatches
         (serviceAttributes attrs (searchSchemaName schema)))).map SecretItem.secret },
     items)
  secret_password_store_sync := fun schema _collection label password attrs items =>
    let filed := serviceAttributes attrs (some schema.name)
    (true, replaceOrAdd (itemMatches filed)
      { label := label, secret := password, attributes := filed } items)
  secret_password_clear_sync := fun schema attrs items =>
    let query := serviceAttributes attrs (searchSchemaName schema)
    (items.any (itemMatches query), items.filter (fun item => !itemMatches query item))

/-- The empty namespace, for which the store is disabled. -/
def emptyNamespace : CString := ⟨"", by decide⟩

/-- The world before any call: an empty keyring and an empty trace. -/
def emptyWorld : World (List SecretItem) := { backend := [], calls := [] }

/-- Every record filed under the schema named `ns` carries the common tag. -/
def Tagged (ns : CString) (items : List SecretItem) : Prop :=
  ∀ item ∈ items, attributeValue item.attributes xdgSchemaKey = some ns →
    attributeValue item.attributes kCommonKeyId = some kCommonKeyValue

instance (ns : CString) (items : List SecretItem) : Decidable (Tagged ns items) := by
  unfold Tagged
  infer_instance

/-- The records of `items` filed under the schema named `ns` for the app-name
attribute value `app`. -/
def recordsFor (ns app : CString) (items : List SecretItem) : List SecretItem :=
  items.filter (fun item =>
    decide (attributeValue item.attributes xdgSchemaKey = some ns) &&
    decide (attributeValue item.attributes kAppNameKey = some app))

/-- The record `SaveUserData` files for the app-name attribute `app` and secret `secret`
through a store opened with the namespace `ns`. -/
def savedRecord (ns app secret : CString) : SecretItem :=
  { label := ⟨"UserSecure", by decide⟩
    secret := secret
    attributes := [(kAppNameKey, app), (kCommonKeyId, kCommonKeyValue), (xdgSchemaKey, ns)] }

/-- The filter by which `SaveUserData` selects the record to overwrite. -/
def saveFilter (ns app : CString) (item : SecretItem) : Bool :=
  decide (attributeValue item.attributes xdgSchemaKey = some ns) &&
  decide (attributeValue item.attributes kAppNameKey = some app) &&
  decide (attributeValue item.attributes kCommonKeyId = some kCommonKeyValue)

/-- The filter of `LoadUserData` and `DeleteUserData`. -/
def appFilter (ns app : CString) (item : SecretItem) : Bool :=
  decide (attributeValue item.attributes xdgSchemaKey = some ns) &&
  decide (attributeValue item.attributes kAppNameKey = some app)

/-- The filter of `DeleteAllData`. -/
def tagFilter (ns : CString) (item : SecretItem) : Bool :=
  decide (attributeValue item.attributes xdgSchemaKey = some ns) &&
  decide (attributeValue item.attributes kCommonKeyId = some kCommonKeyValue)

/-- The string `LoadUserData` returns for what a lookup found. -/
def loaded : Option SecretItem → String
  | none => ""
  | some item => item.secret.str

/-- A record filed under the schema `"ns"` for `"app1"` by another client of the secret
service: it carries no common tag. -/
def foreignRecord : SecretItem :=
  { label := ⟨"other", by decide⟩
    secret := ⟨"stale", by decide⟩
    attributes := [(kAppNameKey, ⟨"app1", by decide⟩), (xdgSchemaKey, ⟨"ns", by decide⟩)] }

/-- A world whose keyring holds `foreignRecord` ahead of a record saved through the
store of the namespace `"ns"` for `"app1"`. -/
def foreignWorld : World (List SecretItem) :=
  { backend := [foreignRecord,
      savedRecord ⟨"ns", by decide⟩ ⟨"app1", by decide⟩ ⟨"old", by decide⟩]
    calls := [] }

/-- A secret service that is out of order: every lookup reports an error, and hands back
a value with it; store and clear fail. -/
def brokenService : SecretService Unit where
  secret_password_lookup_sync := fun _ _ state =>
    ({ error := some { code := 1, message := "service unavailable" }
       result := some ⟨"leftover", by decide⟩ }, state)
  secret_password_store_sync := fun _ _ _ _ _ state => (false, state)
  secret_password_clear_sync := fun _ _ state => (false, state)

/-! ## Basic facts -/

theorem active_length {ns : CString} (h : ns.str ≠ "") :
    ¬ (UserSecureLinuxInternal.create ns).key_namespace_.length ≤ 0 := by
  have h1 : ns.str.data ≠ [] := fun h2 => h (String.ext h2)
  have h2 : 0 < ns.str.data.length := List.length_pos.mpr h1
  simp only [UserSecureLinuxInternal.create, String.length]
  omega

theorem c_str_of_nul_free (s : String) (h : '\x00' ∉ s.data) : (c_str s).str = s := by
  apply String.ext
  show s.data.takeWhile (fun c => c != '\x00') = s.data
  rw [List.takeWhile_eq_self_iff]
  intro c hc
  simp only [bne_iff_ne, ne_eq]
  intro h0
  exact h (h0 ▸ hc)

/-- The query `LoadUserData` and `DeleteUserData` send: app-name and schema name. -/
theorem query_app (ns app : CString) (item : SecretItem) :
    itemMatches (serviceAttributes [(kAppNameKey, app)] (searchSchemaName (BuildSchema ns))) item
      = (decide (attributeValue item.attributes xdgSchemaKey = some ns) &&
         decide (attributeValue item.attributes kAppNameKey = some app)) := by
  have h1 : kAppNameKey ≠ xdgSchemaKey := by decide
  simp [itemMatches, serviceAttributes, searchSchemaName, BuildSchema, h1, Bool.and_comm]

/-- The query `DeleteAllData` sends: common tag and schema name. -/
theorem query_all (ns : CString) (item : SecretItem) :
    itemMatches (serviceAttributes [(kCommonKeyId, kCommonKeyValue)]
        (searchSchemaName (BuildSchema ns))) item
      = (decide (attributeValue item.attributes xdgSchemaKey = some ns) &&
         decide (attributeValue item.attributes kCommonKeyId = some kCommonKeyValue)) := by
  have h1 : kCommonKeyId ≠ xdgSchemaKey := by decide
  simp [itemMatches, serviceAttributes, searchSchemaName, BuildSchema, h1, Bool.and_comm]

/-- The attributes `SaveUserData` files: app-name, common tag and schema name. -/
theorem query_save (ns app : CString) (item : SecretItem) :
    itemMatches (serviceAttributes [(kAppNameKey, app), (kCommonKeyId, kCommonKeyValue)]
        (some (BuildSchema ns).name)) item
      = (decide (attributeValue item.attributes xdgSchemaKey = some ns) &&
         decide (attributeValue item.attributes kAppNameKey = some app) &&
         decide (attributeValue item.attributes kCommonKeyId = some kCommonKeyValue)) := by
  have h1 : kAppNameKey ≠ xdgSchemaKey := by decide
  have h2 : kCommonKeyId ≠ xdgSchemaKey := by decide
  simp only [itemMatches, serviceAttributes, BuildSchema, List.filter, h1, h2, ne_eq,
    not_false_eq_true, decide_True, List.cons_append, List.nil_append, List.all_cons,
    List.all_nil, Bool.and_true]
  cases decide (attributeValue item.attributes xdgSchemaKey = some ns) <;>
  cases decide (attributeValue item.attributes kAppNameKey = some app) <;>
  cases decide (attributeValue item.attributes kCommonKeyId = some kCommonKeyValue) <;> rfl

theorem savedRecord_schema (ns app secret : CString) :
    attributeValue (savedRecord ns app secret).attributes xdgSchemaKey = some ns := by
  have h1 : kAppNameKey ≠ xdgSchemaKey := by decide
  have h2 : kCommonKeyId ≠ xdgSchemaKey := by decide
  simp [savedRecord, attributeValue, h1, h2]

theorem savedRecord_app (ns app secret : CString) :
    attributeValue (savedRecord ns app secret).attributes kAppNameKey = some app := by
  simp [savedRecord, attributeValue]

theorem savedRecord_tag (ns app secret : CString) :
    attributeValue (savedRecord ns app secret).attributes kCommonKeyId
      = some kCommonKeyValue := by
  have h1 : kAppNameKey ≠ kCommonKeyId := by decide
  simp [savedRecord, attributeValue, h1]

theorem save_backend (ns : CString) (h : ns.str ≠ "") (A P : String)
    (w : World (List SecretItem)) :
    ((UserSecureLinuxInternal.create ns).SaveUserData keyring A P w).backend
      = replaceOrAdd (saveFilter ns (c_str A)) (savedRecord ns (c_str A) (c_str P))
          w.backend := by
  have hq : itemMatches (serviceAttributes
      [(kAppNameKey, c_str A), (kCommonKeyId, kCommonKeyValue)] (some (BuildSchema ns).name))
      = saveFilter ns (c_str A) := funext (query_save ns (c_str A))
  have hr : SecretItem.mk ⟨"UserSecure", (by decide)⟩ (c_str P) (serviceAttributes
      [(kAppNameKey, c_str A), (kCommonKeyId, kCommonKeyValue)] (some (BuildSchema ns).name))
      = savedRecord ns (c_str A) (c_str P) := by
    have h1 : kAppNameKey ≠ xdgSchemaKey := by decide
    have h2 : kCommonKeyId ≠ xdgSchemaKey := by decide
    simp [savedRecord, serviceAttributes, BuildSchema, h1, h2]
  simp only [UserSecureLinuxInternal.SaveUserData, if_neg (active_length h), keyring]
  show replaceOrAdd (itemMatches (serviceAttributes _ (some (BuildSchema ns).name))) _
    w.backend = _
  rw [hq]
  exact congrArg (fun r => replaceOrAdd (saveFilter ns (c_str A)) r w.backend) hr

theorem delete_backend (ns : CString) (h : ns.str ≠ "") (A : String)
    (w : World (List SecretItem)) :
    ((UserSecureLinuxInternal.create ns).DeleteUserData keyring A w).backend
      = w.backend.filter (fun item => !appFilter ns (c_str A) item) := by
  have hq : itemMatches (serviceAttributes [(kAppNameKey, c_str A)]
      (searchSchemaName (BuildSchema ns))) = appFilter ns (c_str A) :=
    funext (query_app ns (c_str A))
  simp only [UserSecureLinuxInternal.DeleteUserData, if_neg (active_length h), keyring]
  show List.filter (fun item => !itemMatches (serviceAttributes _
    (searchSchemaName (BuildSchema ns))) item) w.backend = _
  rw [hq]

theorem deleteAll_backend (ns : CString) (h : ns.str ≠ "") (w : World (List SecretItem)) :
    ((UserSecureLinuxInternal.create ns).DeleteAllData keyring w).backend
      = w.backend.filter (fun item => !tagFilter ns item) := by
  have hq : itemMatches (serviceAttributes [(kCommonKeyId, kCommonKeyValue)]
      (searchSchemaName (BuildSchema ns))) = tagFilter ns := funext (query_all ns)
  simp only [UserSecureLinuxInternal.DeleteAllData, if_neg (active_length h), keyring]
  show List.filter (fun item => !itemMatches (serviceAttributes _
    (searchSchemaName (BuildSchema ns))) item) w.backend = _
  rw [hq]

theorem load_result (ns : CString) (h : ns.str ≠ "") (A : String)
    (w : World (List SecretItem)) :
    ((UserSecureLinuxInternal.create ns).LoadUserData keyring A w).1
      = loaded (w.backend.find? (appFilter ns (c_str A))) := by
  have hq : itemMatches (serviceAttributes [(kAppNameKey, c_str A)]
      (searchSchemaName (BuildSchema ns))) = appFilter ns (c_str A) :=
    funext (query_app ns (c_str A))
  simp only [UserSecureLinuxInternal.LoadUserData, if_neg (active_length h), keyring]
  show (match Option.map SecretItem.secret (List.find? (itemMatches (serviceAttributes _
      (searchSchemaName (BuildSchema ns)))) w.backend) with
    | none => ("", _)
    | some result => (result.str, _)).1 = _
  rw [hq]
  cases List.find? (appFilter ns (c_str A)) w.backend <;> rfl

/-! ## Facts about the record store -/

theorem mem_replaceOrAdd {p : SecretItem → Bool} {item x : SecretItem} :
    ∀ {l : List SecretItem}, x ∈ replaceOrAdd p item l → x = item ∨ x ∈ l
  | [], h => by
    simp only [replaceOrAdd, List.mem_singleton] at h
    exact Or.inl h
  | y :: ys, h => by
    simp only [replaceOrAdd] at h
    by_cases hp : p y = true
    · rw [if_pos hp] at h
      rcases List.mem_cons.mp h with h1 | h1
      · exact Or.inl h1
      · exact Or.inr (List.mem_cons_of_mem _ h1)
    · rw [if_neg hp] at h
      rcases List.mem_cons.mp h with h1 | h1
      · exact Or.inr (h1 ▸ List.mem_cons_self _ _)
      · rcases mem_replaceOrAdd h1 with h2 | h2
        · exact Or.inl h2
        · exact Or.inr (List.mem_cons_of_mem _ h2)

theorem item_mem_replaceOrAdd (p : SecretItem → Bool) (item : SecretItem) :
    ∀ l : List SecretItem, item ∈ replaceOrAdd p item l
  | [] => by simp [replaceOrAdd]
  | y :: ys => by
    simp only [replaceOrAdd]
    by_cases hp : p y = true
    · rw [if_pos hp]; exact List.mem_cons_self _ _
    · rw [if_neg hp]; exact List.mem_cons_of_mem _ (item_mem_replaceOrAdd p item ys)

/-- After a store, a query that agrees with the store's filter on the old records and
accepts the new record finds the new record. -/
theorem find_replaceOrAdd_same (q p : SecretItem → Bool) (item : SecretItem)
    (hn : q item = true) :
    ∀ l : List SecretItem, (∀ x ∈ l, q x = p x) →
      (replaceOrAdd p item l).find? q = some item
  | [], _ => by simp [replaceOrAdd, List.find?, hn]
  | y :: ys, h => by
    have hy : q y = p y := h y (List.mem_cons_self _ _)
    have hys : ∀ x ∈ ys, q x = p x := fun x hx => h x (List.mem_cons_of_mem _ hx)
    simp only [replaceOrAdd]
    by_cases hp : p y = true
    · rw [if_pos hp]; simp [List.find?, hn]
    · rw [if_neg hp]
      have hqy : q y = false := by rw [hy]; simpa using hp
      simp only [List.find?, hqy]
      exact find_replaceOrAdd_same q p item hn ys hys

/-- After a store, a query that rejects the new record and every record the store's
filter selects finds what it found before. -/
theorem find_replaceOrAdd_other (q p : SecretItem → Bool) (item : SecretItem)
    (hn : q item = false) :
    ∀ l : List SecretItem, (∀ x ∈ l, p x = true → q x = false) →
      (replaceOrAdd p item l).find? q = l.find? q
  | [], _ => by simp [replaceOrAdd, List.find?, hn]
  | y :: ys, h => by
    have hys : ∀ x ∈ ys, p x = true → q x = false :=
      fun x hx => h x (List.mem_cons_of_mem _ hx)
    simp only [replaceOrAdd]
    by_cases hp : p y = true
    · rw [if_pos hp]
      have hqy : q y = false := h y (List.mem_cons_self _ _) hp
      simp [List.find?, hn, hqy]
    · rw [if_neg hp]
      cases hqy : q y
      · simp only [List.find?, hqy]
        exact find_replaceOrAdd_other q p item hn ys hys
      · simp [List.find?, hqy]

/-- After a clear, a query that rejects every cleared record finds what it found before. -/
theorem find_filter_other (q p : SecretItem → Bool) :
    ∀ l : List SecretItem, (∀ x ∈ l, q x = true → p x = false) →
      (l.filter (fun x => !p x)).find? q = l.find? q
  | [], _ => rfl
  | y :: ys, h => by
    have hys : ∀ x ∈ ys, q x = true → p x = false :=
      fun x hx => h x (List.mem_cons_of_mem _ hx)
    cases hqy : q y
    · cases hpy : p y
      · simp only [List.filter, hpy, Bool.not_false, List.find?, hqy]
        exact find_filter_other q p ys hys
      · simp only [List.filter, hpy, Bool.not_true, List.find?, hqy]
        exact find_filter_other q p ys hys
    · have hpy : p y = false := h y (List.mem_cons_self _ _) hqy
      simp [List.filter, hpy, List.find?, hqy]

/-- After a clear, a query that accepts only cleared records finds nothing. -/
theorem find_filter_none (q p : SecretItem → Bool) (l : List SecretItem)
    (h : ∀ x ∈ l, q x = true → p x = true) :
    (l.filter (fun x => !p x)).find? q = none := by
  rw [List.find?_eq_none]
  intro x hx
  rw [List.mem_filter] at hx
  intro hq
  have := h x hx.1 hq
  simp [this] at hx

theorem appFilter_savedRecord (ns app app2 secret : CString) :
    appFilter ns app2 (savedRecord ns app secret) = decide (app = app2) := by
  simp [appFilter, savedRecord_schema, savedRecord_app]

theorem appFilter_of_saveFilter {ns app : CString} {x : SecretItem}
    (h : saveFilter ns app x = true) : appFilter ns app x = true := by
  simp only [saveFilter, Bool.and_eq_true] at h
  simp only [appFilter, Bool.and_eq_true]
  exact h.1

theorem appFilter_app {ns app : CString} {x : SecretItem}
    (h : appFilter ns app x = true) :
    attributeValue x.attributes kAppNameKey = some app := by
  simp only [appFilter, Bool.and_eq_true, decide_eq_true_eq] at h
  exact h.2

theorem appFilter_schema {ns app : CString} {x : SecretItem}
    (h : appFilter ns app x = true) :
    attributeValue x.attributes xdgSchemaKey = some ns := by
  simp only [appFilter, Bool.and_eq_true, decide_eq_true_eq] at h
  exact h.1

/-- Two app filters with different app-name values, or different namespaces, select
disjoint sets of records. -/
theorem appFilter_disjoint {ns ns2 app app2 : CString} (hne : ns ≠ ns2 ∨ app ≠ app2)
    {x : SecretItem} (h : appFilter ns app x = true) : appFilter ns2 app2 x = false := by
  cases h2 : appFilter ns2 app2 x
  · rfl
  · exfalso
    have e1 := (appFilter_app h).symm.trans (appFilter_app h2)
    have e2 := (appFilter_schema h).symm.trans (appFilter_schema h2)
    rcases hne with hne | hne
    · exact hne (Option.some.inj e2)
    · exact hne (Option.some.inj e1)

/-- On a tagged keyring the filter of `SaveUserData` and the filter of `LoadUserData`
select the same records. -/
theorem appFilter_eq_saveFilter {ns : CString} {l : List SecretItem} (hl : Tagged ns l)
    (app : CString) : ∀ x ∈ l, appFilter ns app x = saveFilter ns app x := by
  intro x hx
  cases h : appFilter ns app x
  · cases h2 : saveFilter ns app x
    · rfl
    · rw [appFilter_of_saveFilter h2] at h; cases h
  · have ht := hl x hx (appFilter_schema h)
    simp only [appFilter] at h
    simp only [saveFilter, h, ht, decide_True, Bool.and_true]

theorem tagged_replaceOrAdd {ns ns2 app secret : CString} {l : List SecretItem}
    (p : SecretItem → Bool) (hl : Tagged ns l) :
    Tagged ns (replaceOrAdd p (savedRecord ns2 app secret) l) := by
  intro x hx _
  rcases mem_replaceOrAdd hx with h | h
  · rw [h]; exact savedRecord_tag ns2 app secret
  · exact hl x h ‹_›

theorem tagged_filter {ns : CString} {l : List SecretItem} (p : SecretItem → Bool)
    (hl : Tagged ns l) : Tagged ns (l.filter p) :=
  fun x hx => hl x (List.mem_of_mem_filter hx)

theorem tagged_save (ns ns2 : CString) (A P : String) (w : World (List SecretItem))
    (hw : Tagged ns w.backend) :
    Tagged ns ((UserSecureLinuxInternal.create ns2).SaveUserData keyring A P w).backend := by
  by_cases h : ns2.str = ""
  · have h0 : (UserSecureLinuxInternal.create ns2).key_namespace_.length ≤ 0 := by
      simp [UserSecureLinuxInternal.create, h]
    simp only [UserSecureLinuxInternal.SaveUserData, if_pos h0]
    exact hw
  · rw [save_backend ns2 h]
    exact tagged_replaceOrAdd _ hw

/-- What `LoadUserData` returns right after `SaveUserData` for the same app-name, on a
tagged keyring. -/
theorem load_after_save (ns : CString) (h : ns.str ≠ "") (A P : String)
    (w : World (List SecretItem)) (hw : Tagged ns w.backend) :
    ((UserSecureLinuxInternal.create ns).LoadUserData keyring A
      ((UserSecureLinuxInternal.create ns).SaveUserData keyring A P w)).1 = (c_str P).str := by
  rw [load_result ns h, save_backend ns h]
  rw [find_replaceOrAdd_same (appFilter ns (c_str A)) (saveFilter ns (c_str A)) _
    (by rw [appFilter_savedRecord]; simp) w.backend (appFilter_eq_saveFilter hw (c_str A))]
  rfl

/-- `SaveUserData` for an app-name with another C string leaves the result of
`LoadUserData` as it was, on every keyring. -/
theorem load_after_save_other (ns : CString) (h : ns.str ≠ "") (A B P : String)
    (hAB : c_str A ≠ c_str B) (w : World (List SecretItem)) :
    ((UserSecureLinuxInternal.create ns).LoadUserData keyring B
      ((UserSecureLinuxInternal.create ns).SaveUserData keyring A P w)).1
      = ((UserSecureLinuxInternal.create ns).LoadUserData keyring B w).1 := by
  rw [load_result ns h, load_result ns h, save_backend ns h]
  rw [find_replaceOrAdd_other (appFilter ns (c_str B)) (saveFilter ns (c_str A)) _
    (by rw [appFilter_savedRecord]; simpa using hAB) w.backend]
  intro x _ hx
  exact appFilter_disjoint (Or.inr hAB) (appFilter_of_saveFilter hx)

theorem tagged_step (ns ns2 : CString) (op : Op) (w : World (List SecretItem))
    (hw : Tagged ns w.backend) :
    Tagged ns ((UserSecureLinuxInternal.create ns2).step keyring w op).backend := by
  cases op with
  | save A P => exact tagged_save ns ns2 A P w hw
  | delete A =>
    by_cases h : ns2.str = ""
    · have h0 : (UserSecureLinuxInternal.create ns2).key_namespace_.length ≤ 0 := by
        simp [UserSecureLinuxInternal.create, h]
      simp only [UserSecureLinuxInternal.step, UserSecureLinuxInternal.DeleteUserData,
        if_pos h0]
      exact hw
    · show Tagged ns ((UserSecureLinuxInternal.create ns2).DeleteUserData keyring A w).backend
      rw [delete_backend ns2 h]
      exact tagged_filter _ hw
  | deleteAll =>
    by_cases h : ns2.str = ""
    · have h0 : (UserSecureLinuxInternal.create ns2).key_namespace_.length ≤ 0 := by
        simp [UserSecureLinuxInternal.create, h]
      simp only [UserSecureLinuxInternal.step, UserSecureLinuxInternal.DeleteAllData,
        if_pos h0]
      exact hw
    · show Tagged ns ((UserSecureLinuxInternal.create ns2).DeleteAllData keyring w).backend
      rw [deleteAll_backend ns2 h]
      exact tagged_filter _ hw

/-- Every call of every store keeps the records of a namespace tagged. -/
theorem tagged_run (ns ns2 : CString) (ops : List Op) :
    ∀ w : World (List SecretItem), Tagged ns w.backend →
      Tagged ns ((UserSecureLinuxInternal.create ns2).run keyring ops w).backend := by
  induction ops with
  | nil => intro w hw; exact hw
  | cons op ops ih =>
    intro w hw
    exact ih _ (tagged_step ns ns2 op w hw)

/-- A record filed under a foreign schema name is selected by no filter of the store. -/
theorem appFilter_savedRecord_foreign {ns ns2 : CString} (hne : ns ≠ ns2)
    (app app2 secret : CString) :
    appFilter ns app2 (savedRecord ns2 app secret) = false := by
  have h1 : ¬ (ns2 = ns) := fun e => hne e.symm
  simp [appFilter, savedRecord_schema, h1]

theorem tagFilter_savedRecord_foreign {ns ns2 : CString} (hne : ns ≠ ns2)
    (app secret : CString) :
    tagFilter ns (savedRecord ns2 app secret) = false := by
  have h1 : ¬ (ns2 = ns) := fun e => hne e.symm
  simp [tagFilter, savedRecord_schema, h1]

theorem mem_filter_not {p : SecretItem → Bool} {x : SecretItem} {l : List SecretItem}
    (hx : x ∈ l) (hp : p x = false) : x ∈ l.filter (fun y => !p y) := by
  rw [List.mem_filter]
  exact ⟨hx, by simp [hp]⟩

/-- A store keeps a query at one record at most, when the query agrees with the
store's filter on the old records. -/
theorem length_filter_replaceOrAdd_same (q p : SecretItem → Bool) (item : SecretItem) :
    ∀ l : List SecretItem, (∀ x ∈ l, q x = p x) → (l.filter q).length ≤ 1 →
      ((replaceOrAdd p item l).filter q).length ≤ 1
  | [], _, _ => by
    simp only [replaceOrAdd]
    exact (List.length_filter_le q [item])
  | y :: ys, h, hlen => by
    have hy : q y = p y := h y (List.mem_cons_self _ _)
    have hys : ∀ x ∈ ys, q x = p x := fun x hx => h x (List.mem_cons_of_mem _ hx)
    simp only [replaceOrAdd]
    by_cases hp : p y = true
    · rw [if_pos hp]
      have hqy : q y = true := by rw [hy]; exact hp
      simp only [List.filter, hqy, List.length_cons] at hlen
      have h0 : (List.filter q ys).length = 0 := by omega
      cases hq : q item
      · simp only [List.filter, hq]; omega
      · simp only [List.filter, hq, List.length_cons]; omega
    · rw [if_neg hp]
      have hqy : q y = false := by rw [hy]; simpa using hp
      simp only [List.filter, hqy] at hlen ⊢
      exact length_filter_replaceOrAdd_same q p item ys hys hlen

/-- A store leaves the records of a query as they were, when the query rejects the new
record and every record the store's filter selects. -/
theorem filter_replaceOrAdd_other (q p : SecretItem → Bool) (item : SecretItem)
    (hn : q item = false) :
    ∀ l : List SecretItem, (∀ x ∈ l, p x = true → q x = false) →
      (replaceOrAdd p item l).filter q = l.filter q
  | [], _ => by simp [replaceOrAdd, List.filter, hn]
  | y :: ys, h => by
    have hys : ∀ x ∈ ys, p x = true → q x = false :=
      fun x hx => h x (List.mem_cons_of_mem _ hx)
    simp only [replaceOrAdd]
    by_cases hp : p y = true
    · rw [if_pos hp]
      have hqy : q y = false := h y (List.mem_cons_self _ _) hp
      simp [List.filter, hn, hqy]
    · rw [if_neg hp]
      have ih := filter_replaceOrAdd_other q p item hn ys hys
      cases hqy : q y
      · simp only [List.filter, hqy]; exact ih
      · simp only [List.filter, hqy]; rw [ih]

theorem length_filter_filter_le (q r : SecretItem → Bool) (l : List SecretItem) :
    ((l.filter r).filter q).length ≤ (l.filter q).length :=
  ((List.filter_sublist l).filter q).length_le

/-- One call of the store keeps every app-name at one record at most. -/
theorem single_step (ns : CString) (h : ns.str ≠ "") (op : Op) (w : World (List SecretItem))
    (hw : Tagged ns w.backend)
    (hc : ∀ app : CString, (w.backend.filter (appFilter ns app)).length ≤ 1) :
    ∀ app : CString,
      (((UserSecureLinuxInternal.create ns).step keyring w op).backend.filter
        (appFilter ns app)).length ≤ 1 := by
  intro app
  cases op with
  | save A P =>
    show (((UserSecureLinuxInternal.create ns).SaveUserData keyring A P w).backend.filter
      (appFilter ns app)).length ≤ 1
    rw [save_backend ns h]
    by_cases e : c_str A = app
    · subst e
      exact length_filter_replaceOrAdd_same _ _ _ _
        (appFilter_eq_saveFilter hw (c_str A)) (hc (c_str A))
    · rw [filter_replaceOrAdd_other _ _ _
        (by rw [appFilter_savedRecord]; simpa using e) w.backend
        (fun x _ hx => appFilter_disjoint (Or.inr e) (appFilter_of_saveFilter hx))]
      exact hc app
  | delete A =>
    show (((UserSecureLinuxInternal.create ns).DeleteUserData keyring A w).backend.filter
      (appFilter ns app)).length ≤ 1
    rw [delete_backend ns h]
    exact Nat.le_trans (length_filter_filter_le _ _ _) (hc app)
  | deleteAll =>
    show (((UserSecureLinuxInternal.create ns).DeleteAllData keyring w).backend.filter
      (appFilter ns app)).length ≤ 1
    rw [deleteAll_backend ns h]
    exact Nat.le_trans (length_filter_filter_le _ _ _) (hc app)

/-- Every sequence of calls of the store keeps every app-name at one record at most. -/
theorem single_run (ns : CString) (h : ns.str ≠ "") (ops : List Op) :
    ∀ w : World (List SecretItem), Tagged ns w.backend →
      (∀ app : CString, (w.backend.filter (appFilter ns app)).length ≤ 1) →
      ∀ app : CString,
        (((UserSecureLinuxInternal.create ns).run keyring ops w).backend.filter
          (appFilter ns app)).length ≤ 1 := by
  induction ops with
  | nil => intro w _ hc; exact hc
  | cons op ops ih =>
    intro w hw hc
    exact ih _ (tagged_step ns ns op w hw) (single_step ns h op w hw hc)

/-- Every record in the keyring after one call of the store was there before the call
or is the record filed by this call, a `SaveUserData`. -/
theorem mem_step_backend (ns : CString) (h : ns.str ≠ "") (op : Op)
    (w : World (List SecretItem)) (item : SecretItem)
    (hi : item ∈ ((UserSecureLinuxInternal.create ns).step keyring w op).backend) :
    item ∈ w.backend ∨
      ∃ A P, op = Op.save A P ∧ item = savedRecord ns (c_str A) (c_str P) := by
  cases op with
  | save A P =>
    change item ∈ ((UserSecureLinuxInternal.create ns).SaveUserData keyring A P w).backend at hi
    rw [save_backend ns h] at hi
    rcases mem_replaceOrAdd hi with h1 | h1
    · exact Or.inr ⟨A, P, rfl, h1⟩
    · exact Or.inl h1
  | delete A =>
    change item ∈ ((UserSecureLinuxInternal.create ns).DeleteUserData keyring A w).backend at hi
    rw [delete_backend ns h] at hi
    exact Or.inl (List.mem_of_mem_filter hi)
  | deleteAll =>
    change item ∈ ((UserSecureLinuxInternal.create ns).DeleteAllData keyring w).backend at hi
    rw [deleteAll_backend ns h] at hi
    exact Or.inl (List.mem_of_mem_filter hi)

/-- Every record in the keyring after a sequence of calls of the store was there before
or was filed by a `SaveUserData` of the sequence. -/
theorem mem_run_backend (ns : CString) (h : ns.str ≠ "") (ops : List Op) :
    ∀ (w : World (List SecretItem)) (item : SecretItem),
      item ∈ ((UserSecureLinuxInternal.create ns).run keyring ops w).backend →
      item ∈ w.backend ∨
        ∃ A P, Op.save A P ∈ ops ∧ item = savedRecord ns (c_str A) (c_str P) := by
  induction ops with
  | nil => intro w item hi; exact Or.inl hi
  | cons op ops ih =>
    intro w item hi
    rcases ih _ item hi with h1 | ⟨A, P, hm, he⟩
    · rcases mem_step_backend ns h op w item h1 with h2 | ⟨A, P, ho, he⟩
      · exact Or.inl h2
      · exact Or.inr ⟨A, P, ho ▸ List.mem_cons_self _ _, he⟩
    · exact Or.inr ⟨A, P, List.mem_cons_of_mem _ hm, he⟩

/-! ## The claims -/

/-- C1 (amended): on a store opened with a non-empty namespace and a keyring whose
records under that namespace all carry the common tag, `SaveUserData(A, P)` followed
by `LoadUserData(A)` returns the C string of `P`, that is `P` cut at its first NUL
character; it returns exactly `P` when `P` contains no NUL character. -/
theorem save_load_round_trip (ns : CString) (h : ns.str ≠ "") (A P : String)
    (w : World (List SecretItem)) (hw : Tagged ns w.backend) :
    ((UserSecureLinuxInternal.create ns).LoadUserData keyring A
        ((UserSecureLinuxInternal.create ns).SaveUserData keyring A P w)).1 = (c_str P).str ∧
    ('\x00' ∉ P.data →
      ((UserSecureLinuxInternal.create ns).LoadUserData keyring A
        ((UserSecureLinuxInternal.create ns).SaveUserData keyring A P w)).1 = P) := by
  refine ⟨load_after_save ns h A P w hw, fun hP => ?_⟩
  rw [load_after_save ns h A P w hw, c_str_of_nul_free P hP]

/-- Witness of C1 (amended): the round trip of the payload `"token"` for `"app1"` on the
empty keyring. -/
theorem save_load_round_trip_witness :
    ((UserSecureLinuxInternal.create ⟨"ns", by decide⟩).LoadUserData keyring "app1"
        ((UserSecureLinuxInternal.create ⟨"ns", by decide⟩).SaveUserData keyring "app1"
          "token" emptyWorld)).1 = "token" :=
  (save_load_round_trip ⟨"ns", by decide⟩ (by decide) "app1" "token" emptyWorld
    (by decide)).2 (by decide)

/-- Counterexample to C1: the payload `"a\x00b"` saved for `"app1"` on the empty keyring
is loaded back as `"a"`. -/
theorem save_load_round_trip_counterexample :
    ((UserSecureLinuxInternal.create ⟨"ns", by decide⟩).LoadUserData keyring "app1"
        ((UserSecureLinuxInternal.create ⟨"ns", by decide⟩).SaveUserData keyring "app1"
          "a\x00b" emptyWorld)).1 = "a" ∧
    ((UserSecureLinuxInternal.create ⟨"ns", by decide⟩).LoadUserData keyring "app1"
        ((UserSecureLinuxInternal.create ⟨"ns", by decide⟩).SaveUserData keyring "app1"
          "a\x00b" emptyWorld)).1 ≠ "a\x00b" := by
  decide

/-- C2: on a store constructed with the empty namespace, `LoadUserData` returns the
empty string and leaves the world as it was, so that no call is added to the trace
and the service state is untouched: for every secret service, app-name and world. -/
theorem load_disabled (svc : SecretService σ) (A : String) (w : World σ) :
    (UserSecureLinuxInternal.create emptyNamespace).LoadUserData svc A w = ("", w) := by
  simp [UserSecureLinuxInternal.LoadUserData, UserSecureLinuxInternal.create,
    emptyNamespace]

/-- C3: on a store constructed with the empty namespace, `SaveUserData`,
`DeleteUserData` and `DeleteAllData` return the world they were given: the trace of
backend calls gains no call and the service state is unchanged, for every secret
service, app-name, payload and world. -/
theorem writes_disabled (svc : SecretService σ) (A P : String) (w : World σ) :
    (UserSecureLinuxInternal.create emptyNamespace).SaveUserData svc A P w = w ∧
    (UserSecureLinuxInternal.create emptyNamespace).DeleteUserData svc A w = w ∧
    (UserSecureLinuxInternal.create emptyNamespace).DeleteAllData svc w = w := by
  simp [UserSecureLinuxInternal.SaveUserData, UserSecureLinuxInternal.DeleteUserData,
    UserSecureLinuxInternal.DeleteAllData, UserSecureLinuxInternal.create, emptyNamespace]

/-- C6 (amended): on a store opened with a non-empty namespace and a keyring whose
records under that namespace all carry the common tag, `SaveUserData(A, P1)` then
`SaveUserData(A, P2)` then `LoadUserData(A)` returns the C string of `P2`, that is `P2`
cut at its first NUL character; it returns exactly `P2` when `P2` contains no NUL
character. -/
theorem save_overwrites (ns : CString) (h : ns.str ≠ "") (A P1 P2 : String)
    (w : World (List SecretItem)) (hw : Tagged ns w.backend) :
    ((UserSecureLinuxInternal.create ns).LoadUserData keyring A
        ((UserSecureLinuxInternal.create ns).SaveUserData keyring A P2
          ((UserSecureLinuxInternal.create ns).SaveUserData keyring A P1 w))).1
      = (c_str P2).str ∧
    ('\x00' ∉ P2.data →
      ((UserSecureLinuxInternal.create ns).LoadUserData keyring A
        ((UserSecureLinuxInternal.create ns).SaveUserData keyring A P2
          ((UserSecureLinuxInternal.create ns).SaveUserData keyring A P1 w))).1 = P2) := by
  have key := load_after_save ns h A P2 _ (tagged_save ns ns A P1 w hw)
  refine ⟨key, fun hP => ?_⟩
  rw [key, c_str_of_nul_free P2 hP]

/-- Witness of C6 (amended): `"new"` overwrites `"old"` for `"app1"` on the empty keyring. -/
theorem save_overwrites_witness :
    ((UserSecureLinuxInternal.create ⟨"ns", by decide⟩).LoadUserData keyring "app1"
        ((UserSecureLinuxInternal.create ⟨"ns", by decide⟩).SaveUserData keyring "app1" "new"
          ((UserSecureLinuxInternal.create ⟨"ns", by decide⟩).SaveUserData keyring "app1"
            "old" emptyWorld))).1 = "new" :=
  (save_overwrites ⟨"ns", by decide⟩ (by decide) "app1" "old" "new" emptyWorld
    (by decide)).2 (by decide)

/-- Counterexample to C6: with `P1 = "a"` and `P2 = "a\x00b"` saved in turn for `"app1"`
on the empty keyring, `LoadUserData` returns `P1` and not `P2`. -/
theorem save_overwrites_counterexample :
    ((UserSecureLinuxInternal.create ⟨"ns", by decide⟩).LoadUserData keyring "app1"
        ((UserSecureLinuxInternal.create ⟨"ns", by decide⟩).SaveUserData keyring "app1"
          "a\x00b"
          ((UserSecureLinuxInternal.create ⟨"ns", by decide⟩).SaveUserData keyring "app1"
            "a" emptyWorld))).1 = "a" ∧
    ((UserSecureLinuxInternal.create ⟨"ns", by decide⟩).LoadUserData keyring "app1"
        ((UserSecureLinuxInternal.create ⟨"ns", by decide⟩).SaveUserData keyring "app1"
          "a\x00b"
          ((UserSecureLinuxInternal.create ⟨"ns", by decide⟩).SaveUserData keyring "app1"
            "a" emptyWorld))).1 ≠ "a\x00b" := by
  decide

/-- C5 (amended): on a store opened with a non-empty namespace and a keyring whose
records under that namespace all carry the common tag, for two app-names `A1` and
`A2` whose C strings differ, after `SaveUserData(A1, P)`, `SaveUserData(A2, P)` and
`DeleteUserData(A1)`, `LoadUserData(A1)` returns the empty string while
`LoadUserData(A2)` returns the C string of `P`, which is `P` when `P` contains no NUL
character. -/
theorem delete_removes_one (ns : CString) (h : ns.str ≠ "") (A1 A2 P : String)
    (hA : c_str A1 ≠ c_str A2) (w : World (List SecretItem)) (hw : Tagged ns w.backend) :
    ((UserSecureLinuxInternal.create ns).LoadUserData keyring A1
        ((UserSecureLinuxInternal.create ns).DeleteUserData keyring A1
          ((UserSecureLinuxInternal.create ns).SaveUserData keyring A2 P
            ((UserSecureLinuxInternal.create ns).SaveUserData keyring A1 P w)))).1 = "" ∧
    ((UserSecureLinuxInternal.create ns).LoadUserData keyring A2
        ((UserSecureLinuxInternal.create ns).DeleteUserData keyring A1
          ((UserSecureLinuxInternal.create ns).SaveUserData keyring A2 P
            ((UserSecureLinuxInternal.create ns).SaveUserData keyring A1 P w)))).1
      = (c_str P).str ∧
    ('\x00' ∉ P.data →
      ((UserSecureLinuxInternal.create ns).LoadUserData keyring A2
        ((UserSecureLinuxInternal.create ns).DeleteUserData keyring A1
          ((UserSecureLinuxInternal.create ns).SaveUserData keyring A2 P
            ((UserSecureLinuxInternal.create ns).SaveUserData keyring A1 P w)))).1 = P) := by
  have h1 : ((UserSecureLinuxInternal.create ns).LoadUserData keyring A1
        ((UserSecureLinuxInternal.create ns).DeleteUserData keyring A1
          ((UserSecureLinuxInternal.create ns).SaveUserData keyring A2 P
            ((UserSecureLinuxInternal.create ns).SaveUserData keyring A1 P w)))).1 = "" := by
    rw [load_result ns h, delete_backend ns h,
      find_filter_none _ _ _ (fun x _ hx => hx)]
    rfl
  have h2 : ((UserSecureLinuxInternal.create ns).LoadUserData keyring A2
        ((UserSecureLinuxInternal.create ns).DeleteUserData keyring A1
          ((UserSecureLinuxInternal.create ns).SaveUserData keyring A2 P
            ((UserSecureLinuxInternal.create ns).SaveUserData keyring A1 P w)))).1
      = (c_str P).str := by
    rw [load_result ns h, delete_backend ns h,
      find_filter_other _ _ _ (fun x _ hx => appFilter_disjoint (Or.inr hA.symm) hx),
      ← load_result ns h]
    exact load_after_save ns h A2 P _ (tagged_save ns ns A1 P w hw)
  refine ⟨h1, h2, fun hP => ?_⟩
  rw [h2, c_str_of_nul_free P hP]

/-- Witness of C5 (amended): `"app1"` and `"app2"` with the payload `"token"` on the empty
keyring. -/
theorem delete_removes_one_witness :
    ((UserSecureLinuxInternal.create ⟨"ns", by decide⟩).LoadUserData keyring "app1"
        ((UserSecureLinuxInternal.create ⟨"ns", by decide⟩).DeleteUserData keyring "app1"
          ((UserSecureLinuxInternal.create ⟨"ns", by decide⟩).SaveUserData keyring "app2"
            "token"
            ((UserSecureLinuxInternal.create ⟨"ns", by decide⟩).SaveUserData keyring "app1"
              "token" emptyWorld)))).1 = "" ∧
    ((UserSecureLinuxInternal.create ⟨"ns", by decide⟩).LoadUserData keyring "app2"
        ((UserSecureLinuxInternal.create ⟨"ns", by decide⟩).DeleteUserData keyring "app1"
          ((UserSecureLinuxInternal.create ⟨"ns", by decide⟩).SaveUserData keyring "app2"
            "token"
            ((UserSecureLinuxInternal.create ⟨"ns", by decide⟩).SaveUserData keyring "app1"
              "token" emptyWorld)))).1 = "token" :=
  have key := delete_removes_one ⟨"ns", by decide⟩ (by decide) "app1" "app2" "token"
    (by decide) emptyWorld (by decide)
  ⟨key.1, key.2.2 (by decide)⟩

/-- Counterexample to C5, on the empty keyring: the distinct app-names `"app"` and
`"app\x00x"` share the C string `"app"`, so that deleting the first empties the second;
and the payload `"a\x00b"` saved for `"app1"` and `"app2"` is loaded back from `"app2"`
as `"a"`. -/
theorem delete_removes_one_counterexample :
    ("app" ≠ "app\x00x" ∧
      ((UserSecureLinuxInternal.create ⟨"ns", by decide⟩).LoadUserData keyring "app\x00x"
        ((UserSecureLinuxInternal.create ⟨"ns", by decide⟩).DeleteUserData keyring "app"
          ((UserSecureLinuxInternal.create ⟨"ns", by decide⟩).SaveUserData keyring
            "app\x00x" "token"
            ((UserSecureLinuxInternal.create ⟨"ns", by decide⟩).SaveUserData keyring "app"
              "token" emptyWorld)))).1 ≠ "token") ∧
    ("app1" ≠ "app2" ∧
      ((UserSecureLinuxInternal.create ⟨"ns", by decide⟩).LoadUserData keyring "app2"
        ((UserSecureLinuxInternal.create ⟨"ns", by decide⟩).DeleteUserData keyring "app1"
          ((UserSecureLinuxInternal.create ⟨"ns", by decide⟩).SaveUserData keyring "app2"
            "a\x00b"
            ((UserSecureLinuxInternal.create ⟨"ns", by decide⟩).SaveUserData keyring "app1"
              "a\x00b" emptyWorld)))).1 ≠ "a\x00b") := by
  decide

/-- C7 (amended): on a store opened with a non-empty namespace, for two app-names `A`
and `B` whose C strings differ and every keyring state, `SaveUserData(A, P)` does not
change what `LoadUserData(B)` returns; and on a keyring whose records under the
namespace all carry the common tag, after `SaveUserData(A, P1)` and
`SaveUserData(B, P2)`, `LoadUserData(A)` returns the C string of `P1` and
`LoadUserData(B)` the C string of `P2`, which are `P1` and `P2` when these contain no
NUL character. -/
theorem save_isolated (ns : CString) (h : ns.str ≠ "") (A B P P1 P2 : String)
    (hAB : c_str A ≠ c_str B) (w : World (List SecretItem)) :
    ((UserSecureLinuxInternal.create ns).LoadUserData keyring B
        ((UserSecureLinuxInternal.create ns).SaveUserData keyring A P w)).1
      = ((UserSecureLinuxInternal.create ns).LoadUserData keyring B w).1 ∧
    (Tagged ns w.backend →
      ((UserSecureLinuxInternal.create ns).LoadUserData keyring A
          ((UserSecureLinuxInternal.create ns).SaveUserData keyring B P2
            ((UserSecureLinuxInternal.create ns).SaveUserData keyring A P1 w))).1
        = (c_str P1).str ∧
      ((UserSecureLinuxInternal.create ns).LoadUserData keyring B
          ((UserSecureLinuxInternal.create ns).SaveUserData keyring B P2
            ((UserSecureLinuxInternal.create ns).SaveUserData keyring A P1 w))).1
        = (c_str P2).str ∧
      ('\x00' ∉ P1.data → '\x00' ∉ P2.data →
        ((UserSecureLinuxInternal.create ns).LoadUserData keyring A
          ((UserSecureLinuxInternal.create ns).SaveUserData keyring B P2
            ((UserSecureLinuxInternal.create ns).SaveUserData keyring A P1 w))).1 = P1 ∧
        ((UserSecureLinuxInternal.create ns).LoadUserData keyring B
          ((UserSecureLinuxInternal.create ns).SaveUserData keyring B P2
            ((UserSecureLinuxInternal.create ns).SaveUserData keyring A P1 w))).1 = P2)) := by
  refine ⟨load_after_save_other ns h A B P hAB w, fun hw => ?_⟩
  have hA : ((UserSecureLinuxInternal.create ns).LoadUserData keyring A
          ((UserSecureLinuxInternal.create ns).SaveUserData keyring B P2
            ((UserSecureLinuxInternal.create ns).SaveUserData keyring A P1 w))).1
        = (c_str P1).str := by
    rw [load_after_save_other ns h B A P2 hAB.symm]
    exact load_after_save ns h A P1 w hw
  have hB := load_after_save ns h B P2 _ (tagged_save ns ns A P1 w hw)
  refine ⟨hA, hB, fun h1 h2 => ?_⟩
  rw [hA, hB, c_str_of_nul_free P1 h1, c_str_of_nul_free P2 h2]
  exact ⟨rfl, rfl⟩

/-- Witness of C7 (amended): `"app1"` and `"app2"` on the empty keyring. -/
theorem save_isolated_witness :
    ((UserSecureLinuxInternal.create ⟨"ns", by decide⟩).LoadUserData keyring "app2"
        ((UserSecureLinuxInternal.create ⟨"ns", by decide⟩).SaveUserData keyring "app1"
          "p" emptyWorld)).1
      = ((UserSecureLinuxInternal.create ⟨"ns", by decide⟩).LoadUserData keyring "app2"
          emptyWorld).1 ∧
    ((UserSecureLinuxInternal.create ⟨"ns", by decide⟩).LoadUserData keyring "app1"
        ((UserSecureLinuxInternal.create ⟨"ns", by decide⟩).SaveUserData keyring "app2" "p2"
          ((UserSecureLinuxInternal.create ⟨"ns", by decide⟩).SaveUserData keyring "app1"
            "p1" emptyWorld))).1 = "p1" ∧
    ((UserSecureLinuxInternal.create ⟨"ns", by decide⟩).LoadUserData keyring "app2"
        ((UserSecureLinuxInternal.create ⟨"ns", by decide⟩).SaveUserData keyring "app2" "p2"
          ((UserSecureLinuxInternal.create ⟨"ns", by decide⟩).SaveUserData keyring "app1"
            "p1" emptyWorld))).1 = "p2" :=
  have key := save_isolated ⟨"ns", by decide⟩ (by decide) "app1" "app2" "p" "p1" "p2"
    (by decide) emptyWorld
  ⟨key.1, (key.2 (by decide)).2.2 (by decide) (by decide)⟩

/-- Counterexample to C7.  On the empty keyring the distinct app-names `"app"` and
`"app\x00x"` share a C string, so that saving the first changes what loading the second
returns; the payload `"a\x00b"` saved for `"app1"` is loaded back as `"a"`; and on the
keyring of `foreignWorld`, where an untagged record for `"app1"` precedes the tagged
one, `LoadUserData("app1")` after the two saves returns `"stale"` and not `"p1"`. -/
theorem save_isolated_counterexample :
    ("app" ≠ "app\x00x" ∧
      ((UserSecureLinuxInternal.create ⟨"ns", by decide⟩).LoadUserData keyring "app\x00x"
        ((UserSecureLinuxInternal.create ⟨"ns", by decide⟩).SaveUserData keyring "app"
          "token" emptyWorld)).1
      ≠ ((UserSecureLinuxInternal.create ⟨"ns", by decide⟩).LoadUserData keyring
          "app\x00x" emptyWorld).1) ∧
    ("app1" ≠ "app2" ∧
      ((UserSecureLinuxInternal.create ⟨"ns", by decide⟩).LoadUserData keyring "app1"
        ((UserSecureLinuxInternal.create ⟨"ns", by decide⟩).SaveUserData keyring "app2" "p2"
          ((UserSecureLinuxInternal.create ⟨"ns", by decide⟩).SaveUserData keyring "app1"
            "a\x00b" emptyWorld))).1 ≠ "a\x00b") ∧
    ("app1" ≠ "app2" ∧
      ((UserSecureLinuxInternal.create ⟨"ns", by decide⟩).LoadUserData keyring "app1"
        ((UserSecureLinuxInternal.create ⟨"ns", by decide⟩).SaveUserData keyring "app2" "p2"
          ((UserSecureLinuxInternal.create ⟨"ns", by decide⟩).SaveUserData keyring "app1"
            "p1" foreignWorld))).1 = "stale") := by
  decide

/-- C4: on a store opened with a non-empty namespace and a keyring whose records under
that namespace all carry the common tag (the empty keyring is one), after any
sequence of calls on that store, in particular any sequence of `SaveUserData` calls
using two or more distinct app-names, `DeleteAllData()` makes `LoadUserData` return
the empty string for every app-name, in particular for every one saved. -/
theorem delete_all_wipes (ns : CString) (h : ns.str ≠ "") (ops : List Op)
    (w : World (List SecretItem)) (hw : Tagged ns w.backend) (A : String) :
    ((UserSecureLinuxInternal.create ns).LoadUserData keyring A
      ((UserSecureLinuxInternal.create ns).DeleteAllData keyring
        ((UserSecureLinuxInternal.create ns).run keyring ops w))).1 = "" := by
  have ht := tagged_run ns ns ops w hw
  rw [load_result ns h, deleteAll_backend ns h, find_filter_none]
  · rfl
  · intro x hx hq
    have h1 := appFilter_schema hq
    have h2 := ht x hx h1
    simp [tagFilter, h1, h2]

/-- Witness of C4: three saves under the two app-names `"app1"` and `"app2"` on the empty
keyring, then `DeleteAllData()`, then a load of `"app2"`. -/
theorem delete_all_wipes_witness :
    ((UserSecureLinuxInternal.create ⟨"ns", by decide⟩).LoadUserData keyring "app2"
      ((UserSecureLinuxInternal.create ⟨"ns", by decide⟩).DeleteAllData keyring
        ((UserSecureLinuxInternal.create ⟨"ns", by decide⟩).run keyring
          [Op.save "app1" "p1", Op.save "app2" "p2", Op.save "app1" "p3"] emptyWorld))).1
      = "" :=
  delete_all_wipes ⟨"ns", by decide⟩ (by decide)
    [Op.save "app1" "p1", Op.save "app2" "p2", Op.save "app1" "p3"] emptyWorld
    (by decide) "app2"

/-- C10: for two distinct non-empty namespaces `N` and `M`, every keyring state and all
app-names `A` and `B` (in particular `B = A`): after `SaveUserData(A, P)` on the store
of `M`, `LoadUserData(B)` on the store of `N` returns what it returned before the
save; the saved record is in the keyring, and still is after `DeleteUserData(B)` and
after `DeleteAllData()` on the store of `N`; `LoadUserData(A)` on the store of `M`
returns the same string before and after either deletion on the store of `N`; and
the call each of the three operations of the store of `N` issues carries the schema
named `N`, which restricts matches to that name, while the common tag value is the
same for every namespace. -/
theorem namespaces_isolated (N M : CString) (hN : N.str ≠ "") (hM : M.str ≠ "")
    (hNM : N ≠ M) (A B P : String) (w : World (List SecretItem)) :
    ((UserSecureLinuxInternal.create N).LoadUserData keyring B
        ((UserSecureLinuxInternal.create M).SaveUserData keyring A P w)).1
      = ((UserSecureLinuxInternal.create N).LoadUserData keyring B w).1 ∧
    savedRecord M (c_str A) (c_str P)
      ∈ ((UserSecureLinuxInternal.create M).SaveUserData keyring A P w).backend ∧
    savedRecord M (c_str A) (c_str P)
      ∈ ((UserSecureLinuxInternal.create N).DeleteUserData keyring B
          ((UserSecureLinuxInternal.create M).SaveUserData keyring A P w)).backend ∧
    savedRecord M (c_str A) (c_str P)
      ∈ ((UserSecureLinuxInternal.create N).DeleteAllData keyring
          ((UserSecureLinuxInternal.create M).SaveUserData keyring A P w)).backend ∧
    ((UserSecureLinuxInternal.create M).LoadUserData keyring A
        ((UserSecureLinuxInternal.create N).DeleteUserData keyring B
          ((UserSecureLinuxInternal.create M).SaveUserData keyring A P w))).1
      = ((UserSecureLinuxInternal.create M).LoadUserData keyring A
          ((UserSecureLinuxInternal.create M).SaveUserData keyring A P w)).1 ∧
    ((UserSecureLinuxInternal.create M).LoadUserData keyring A
        ((UserSecureLinuxInternal.create N).DeleteAllData keyring
          ((UserSecureLinuxInternal.create M).SaveUserData keyring A P w))).1
      = ((UserSecureLinuxInternal.create M).LoadUserData keyring A
          ((UserSecureLinuxInternal.create M).SaveUserData keyring A P w)).1 ∧
    ((UserSecureLinuxInternal.create N).LoadUserData keyring B w).2.calls
      = w.calls ++ [BackendCall.lookup (BuildSchema N) [(kAppNameKey, c_str B)]] ∧
    ((UserSecureLinuxInternal.create N).DeleteUserData keyring B w).calls
      = w.calls ++ [BackendCall.clear (BuildSchema N) [(kAppNameKey, c_str B)]] ∧
    ((UserSecureLinuxInternal.create N).DeleteAllData keyring w).calls
      = w.calls ++ [BackendCall.clear (BuildSchema N) [(kCommonKeyId, kCommonKeyValue)]] ∧
    searchSchemaName (BuildSchema N) = some N := by
  have hmem : savedRecord M (c_str A) (c_str P)
      ∈ ((UserSecureLinuxInternal.create M).SaveUserData keyring A P w).backend := by
    rw [save_backend M hM]
    exact item_mem_replaceOrAdd _ _ _
  have hs : (UserSecureLinuxInternal.create N).storage_schema_ = BuildSchema N := rfl
  refine ⟨?_, hmem, ?_, ?_, ?_, ?_, ?_, ?_, ?_, rfl⟩
  · rw [load_result N hN, load_result N hN, save_backend M hM]
    apply congrArg loaded
    apply find_replaceOrAdd_other _ _ _ (appFilter_savedRecord_foreign hNM _ _ _)
    intro x _ hx
    exact appFilter_disjoint (Or.inl (Ne.symm hNM)) (appFilter_of_saveFilter hx)
  · rw [delete_backend N hN]
    exact mem_filter_not hmem (appFilter_savedRecord_foreign hNM _ _ _)
  · rw [deleteAll_backend N hN]
    exact mem_filter_not hmem (tagFilter_savedRecord_foreign hNM _ _)
  · rw [load_result M hM, load_result M hM, delete_backend N hN]
    apply congrArg loaded
    apply find_filter_other
    intro x _ hx
    exact appFilter_disjoint (Or.inl (Ne.symm hNM)) hx
  · rw [load_result M hM, load_result M hM, deleteAll_backend N hN]
    apply congrArg loaded
    apply find_filter_other
    intro x _ hx
    have h1 := appFilter_schema hx
    have h2 : ¬ (M = N) := fun e => hNM e.symm
    simp [tagFilter, h1, h2]
  · simp only [UserSecureLinuxInternal.LoadUserData, if_neg (active_length hN), hs, keyring]
    cases List.find? (itemMatches (serviceAttributes [(kAppNameKey, c_str B)]
      (searchSchemaName (BuildSchema N)))) w.backend <;> rfl
  · simp only [UserSecureLinuxInternal.DeleteUserData, if_neg (active_length hN), hs]
  · simp only [UserSecureLinuxInternal.DeleteAllData, if_neg (active_length hN), hs]

/-- Witness of C10: the namespaces `"nsN"` and `"nsM"` with the app-name `"app1"` on the
empty keyring; the record saved through `"nsM"` survives `DeleteAllData()` on the store
of `"nsN"`. -/
theorem namespaces_isolated_witness :
    savedRecord ⟨"nsM", by decide⟩ (c_str "app1") (c_str "token")
      ∈ ((UserSecureLinuxInternal.create ⟨"nsN", by decide⟩).DeleteAllData keyring
          ((UserSecureLinuxInternal.create ⟨"nsM", by decide⟩).SaveUserData keyring "app1"
            "token" emptyWorld)).backend :=
  (namespaces_isolated ⟨"nsN", by decide⟩ ⟨"nsM", by decide⟩ (by decide) (by decide)
    (by decide) "app1" "app1" "token" emptyWorld).2.2.2.1

/-- C9: starting from the empty keyring, after any finite sequence of `SaveUserData`,
`DeleteUserData` and `DeleteAllData` calls on a store with a fixed non-empty
namespace, the keyring holds at most one record per app-name value under that
namespace's schema, and every record under that schema carries the app-name
attribute and the common tag with the value `"common_key_value"`. -/
theorem at_most_one_record (ns : CString) (h : ns.str ≠ "") (ops : List Op) :
    (∀ app : CString,
      (recordsFor ns app
        ((UserSecureLinuxInternal.create ns).run keyring ops emptyWorld).backend).length ≤ 1) ∧
    (∀ item ∈ ((UserSecureLinuxInternal.create ns).run keyring ops emptyWorld).backend,
      attributeValue item.attributes xdgSchemaKey = some ns →
      (∃ app : CString, attributeValue item.attributes kAppNameKey = some app) ∧
      attributeValue item.attributes kCommonKeyId = some kCommonKeyValue) ∧
    kCommonKeyValue.str = "common_key_value" := by
  refine ⟨?_, ?_, rfl⟩
  · intro app
    exact single_run ns h ops emptyWorld (by simp [Tagged, emptyWorld])
      (by simp [emptyWorld]) app
  · intro item hi _
    rcases mem_run_backend ns h ops emptyWorld item hi with h1 | ⟨A, P, _, he⟩
    · simp [emptyWorld] at h1
    · rw [he]
      exact ⟨⟨c_str A, savedRecord_app _ _ _⟩, savedRecord_tag _ _ _⟩

/-- Witness of C9: two saves for `"app1"`, a delete of `"app2"` and a save for `"app2"` leave
at most one record for `"app1"`. -/
theorem at_most_one_record_witness :
    (recordsFor ⟨"ns", by decide⟩ ⟨"app1", by decide⟩
      ((UserSecureLinuxInternal.create ⟨"ns", by decide⟩).run keyring
        [Op.save "app1" "p1", Op.save "app1" "p2", Op.delete "app2", Op.save "app2" "p3"]
        emptyWorld).backend).length ≤ 1 :=
  (at_most_one_record ⟨"ns", by decide⟩ (by decide)
    [Op.save "app1" "p1", Op.save "app1" "p2", Op.delete "app2", Op.save "app2" "p3"]).1
    ⟨"app1", by decide⟩

/-- C8 (amended): on a store opened with a non-empty namespace, for every secret
service and world, `LoadUserData(A)` returns the value the lookup produced when the
lookup reports a value and no error, and returns the empty string both when the
lookup reports no value and no error and when it reports an error, whatever value
came with the error.  On the keyring, after any sequence of calls on the store from
the empty keyring in which no `SaveUserData` used an app-name with the C string of
`A`, the lookup reports no record and `LoadUserData(A)` returns the empty string. -/
theorem load_collapses_failures (svc : SecretService σ) (ns : CString) (h : ns.str ≠ "")
    (A : String) (w : World σ) :
    (∀ s : CString,
      (svc.secret_password_lookup_sync (BuildSchema ns) [(kAppNameKey, c_str A)]
        w.backend).1.error = none →
      (svc.secret_password_lookup_sync (BuildSchema ns) [(kAppNameKey, c_str A)]
        w.backend).1.result = some s →
      ((UserSecureLinuxInternal.create ns).LoadUserData svc A w).1 = s.str) ∧
    ((svc.secret_password_lookup_sync (BuildSchema ns) [(kAppNameKey, c_str A)]
        w.backend).1.error = none →
      (svc.secret_password_lookup_sync (BuildSchema ns) [(kAppNameKey, c_str A)]
        w.backend).1.result = none →
      ((UserSecureLinuxInternal.create ns).LoadUserData svc A w).1 = "") ∧
    ((svc.secret_password_lookup_sync (BuildSchema ns) [(kAppNameKey, c_str A)]
        w.backend).1.error ≠ none →
      ((UserSecureLinuxInternal.create ns).LoadUserData svc A w).1 = "") ∧
    (∀ ops : List Op, (∀ B P, Op.save B P ∈ ops → c_str B ≠ c_str A) →
      (keyring.secret_password_lookup_sync (BuildSchema ns) [(kAppNameKey, c_str A)]
        ((UserSecureLinuxInternal.create ns).run keyring ops emptyWorld).backend).1.result
        = none ∧
      ((UserSecureLinuxInternal.create ns).LoadUserData keyring A
        ((UserSecureLinuxInternal.create ns).run keyring ops emptyWorld)).1 = "") := by
  have hs : (UserSecureLinuxInternal.create ns).storage_schema_ = BuildSchema ns := rfl
  refine ⟨?_, ?_, ?_, ?_⟩
  · intro s he hr
    simp only [UserSecureLinuxInternal.LoadUserData, if_neg (active_length h), hs, he, hr]
  · intro he hr
    simp only [UserSecureLinuxInternal.LoadUserData, if_neg (active_length h), hs, he, hr]
  · intro he
    cases hx : (svc.secret_password_lookup_sync (BuildSchema ns) [(kAppNameKey, c_str A)]
        w.backend).1.error with
    | none => exact absurd hx he
    | some e => simp only [UserSecureLinuxInternal.LoadUserData, if_neg (active_length h), hs, hx]
  · intro ops hops
    have hnone : List.find? (appFilter ns (c_str A))
        ((UserSecureLinuxInternal.create ns).run keyring ops emptyWorld).backend = none := by
      rw [List.find?_eq_none]
      intro x hx
      rcases mem_run_backend ns h ops emptyWorld x hx with h1 | ⟨B, P, hm, he⟩
      · simp [emptyWorld] at h1
      · rw [he, appFilter_savedRecord]
        simpa using hops B P hm
    constructor
    · have hq : itemMatches (serviceAttributes [(kAppNameKey, c_str A)]
          (searchSchemaName (BuildSchema ns))) = appFilter ns (c_str A) :=
        funext (query_app ns (c_str A))
      show Option.map SecretItem.secret (List.find? (itemMatches (serviceAttributes _
        (searchSchemaName (BuildSchema ns)))) _) = none
      rw [hq, hnone]
      rfl
    · rw [load_result ns h, hnone]
      rfl

/-- Witness of C8 (amended): on `brokenService`, whose lookup reports an error together
with the value `"leftover"`, the load returns the empty string; and so does the load of
`"app2"` on the keyring after a save for `"app1"`. -/
theorem load_collapses_failures_witness :
    ((UserSecureLinuxInternal.create ⟨"ns", by decide⟩).LoadUserData brokenService "app1"
      { backend := (), calls := [] }).1 = "" ∧
    ((UserSecureLinuxInternal.create ⟨"ns", by decide⟩).LoadUserData keyring "app2"
      ((UserSecureLinuxInternal.create ⟨"ns", by decide⟩).run keyring
        [Op.save "app1" "token"] emptyWorld)).1 = "" :=
  ⟨(load_collapses_failures brokenService ⟨"ns", by decide⟩ (by decide) "app1"
      { backend := (), calls := [] }).2.2.1 (by simp [brokenService]),
   ((load_collapses_failures keyring ⟨"ns", by decide⟩ (by decide) "app2" emptyWorld).2.2.2
      [Op.save "app1" "token"]
      (by intro B P hm; rw [List.mem_singleton] at hm; cases hm; decide)).2⟩

/-- Counterexample to C8: after the only save `SaveUserData("app", "token")` on the empty
keyring, the app-name `"app\x00x"` was never saved, yet the lookup for it reports a
record and `LoadUserData("app\x00x")` returns `"token"`, not the empty string. -/
theorem load_collapses_failures_counterexample :
    (∀ B P, Op.save B P ∈ [Op.save "app" "token"] → B ≠ "app\x00x") ∧
    ((UserSecureLinuxInternal.create ⟨"ns", by decide⟩).LoadUserData keyring "app\x00x"
      ((UserSecureLinuxInternal.create ⟨"ns", by decide⟩).run keyring
        [Op.save "app" "token"] emptyWorld)).1 = "token" ∧
    ((UserSecureLinuxInternal.create ⟨"ns", by decide⟩).LoadUserData keyring "app\x00x"
      ((UserSecureLinuxInternal.create ⟨"ns", by decide⟩).run keyring
        [Op.save "app" "token"] emptyWorld)).1 ≠ "" := by
  refine ⟨?_, by decide, by decide⟩
  intro B P hm
  rw [List.mem_singleton] at hm
  cases hm
  decide

end firebase.auth.secure
